import Mathlib

/-!
Verification of the Watcher repository's validation engine, watcher
management and frontend event handling, as a shallow embedding in Lean.

The repository splits into a React frontend (the WatcherCreate, Users,
Watchers and Events pages) and a backend watcher runtime whose sources are
not included in the repository snapshot.  Frontend functions (isNumericField, parseRuleValue,
addValidationRule, the create-watcher submit payload, the Watchers page
latest-event map, the Events page filter and formatMetadataValue) are
translated directly from the TypeScript source.  Backend components
(ValidationEngine, FileEventFilter, WatcherManager) are modelled from the
specification, as indicated on each definition.

JavaScript strings are modelled as Lean Strings manipulated through
char-list helpers (so that everything evaluates inside the kernel), and
JavaScript numbers are modelled as exact decimal numbers `JSNum`
(an integer mantissa with a power-of-ten exponent): every number that
reaches the functions in question originates from a decimal literal in a
form input or a JSON payload, and such numbers are exact decimals.
-/

/-! ## String primitives (JavaScript semantics, kernel-computable) -/

/-- Does the list start with the given pattern? -/
def startsWithList : List Char → List Char → Bool
  | _, [] => true
  | [], _ :: _ => false
  | a :: as, b :: bs => a == b && startsWithList as bs

/-- Does the pattern occur as a contiguous sublist? -/
def hasSubList : List Char → List Char → Bool
  | [], p => startsWithList [] p
  | a :: as, p => startsWithList (a :: as) p || hasSubList as p

/-- JavaScript `s.includes(pat)`. -/
def strContains (s pat : String) : Bool :=
  hasSubList s.data pat.data

/-- JavaScript `s.toLowerCase()` (ASCII range, which is all the source uses). -/
def jsToLower (s : String) : String :=
  String.mk (s.data.map Char.toLower)

/-- JavaScript `s.trim()`. -/
def jsTrim (s : String) : String :=
  String.mk (((s.data.dropWhile Char.isWhitespace).reverse.dropWhile Char.isWhitespace).reverse)

/-- Helper for `splitComma`: accumulates the current field in reverse. -/
def splitCommaAux : List Char → List Char → List String
  | [], cur => [String.mk cur.reverse]
  | c :: rest, cur =>
    if c == ',' then String.mk cur.reverse :: splitCommaAux rest [] else splitCommaAux rest (c :: cur)

/-- JavaScript `s.split(',')`. -/
def splitComma (s : String) : List String :=
  splitCommaAux s.data []

/-! ## JavaScript numbers as exact decimals -/

/-- A JavaScript number as it arises from decimal input: `num / 10 ^ exp`. -/
structure JSNum where
  num : Int
  exp : Nat
  deriving DecidableEq, Repr

/-- The integer `n` as a `JSNum`. -/
def JSNum.ofInt (n : Int) : JSNum := ⟨n, 0⟩

/-- Value comparison (cross-multiplied, so representation-independent): `a < b`. -/
def JSNum.blt (a b : JSNum) : Bool :=
  decide (a.num * Int.ofNat (10 ^ b.exp) < b.num * Int.ofNat (10 ^ a.exp))

/-- Value comparison: `a ≤ b`. -/
def JSNum.ble (a b : JSNum) : Bool :=
  decide (a.num * Int.ofNat (10 ^ b.exp) ≤ b.num * Int.ofNat (10 ^ a.exp))

/-- Value equality: `a == b`. -/
def JSNum.beq (a b : JSNum) : Bool :=
  decide (a.num * Int.ofNat (10 ^ b.exp) = b.num * Int.ofNat (10 ^ a.exp))

/-- Division by `10 ^ k` (exact). -/
def JSNum.divPow10 (a : JSNum) (k : Nat) : JSNum := ⟨a.num, a.exp + k⟩

/-- The rational value denoted by a `JSNum`. -/
def JSNum.toRat (a : JSNum) : ℚ := (a.num : ℚ) / ((10 : ℚ) ^ a.exp)

/-- Digits to the natural number they spell (most significant first). -/
def digitsToNat (l : List Char) : Nat :=
  l.foldl (fun acc c => acc * 10 + (c.toNat - '0'.toNat)) 0

/-- Sign handling shared by the two JavaScript parsers. -/
def takeSign : List Char → Int × List Char
  | '-' :: t => (-1, t)
  | '+' :: t => (1, t)
  | t => (1, t)

/-- JavaScript `parseFloat` on the decimal shapes the forms produce:
optional sign, integer digits, optional fraction; `none` is `NaN`. -/
def jsParseFloat (s : String) : Option JSNum :=
  let sr := takeSign s.data
  let ds := sr.2.takeWhile Char.isDigit
  let rest := sr.2.drop ds.length
  let fs := match rest with
    | '.' :: t => t.takeWhile Char.isDigit
    | _ => []
  if ds.isEmpty && fs.isEmpty then none
  else some ⟨sr.1 * Int.ofNat (digitsToNat ds * 10 ^ fs.length + digitsToNat fs), fs.length⟩

/-- JavaScript `parseInt` (base 10): optional sign then integer digits;
`none` is `NaN`. -/
def jsParseInt (s : String) : Option JSNum :=
  let sr := takeSign s.data
  let ds := sr.2.takeWhile Char.isDigit
  if ds.isEmpty then none
  else some ⟨sr.1 * Int.ofNat (digitsToNat ds), 0⟩

/-- Strip trailing zero decimals: `(n, e)` with `n / 10 ^ e` unchanged and
either `e = 0` or `10 ∤ n`. -/
def stripZeros : Int → Nat → Int × Nat
  | n, 0 => (n, 0)
  | n, e + 1 => if n % 10 == 0 then stripZeros (n / 10) e else (n, e + 1)

/-- Decimal numeral of an integer. -/
def intRepr (n : Int) : String :=
  if n < 0 then "-" ++ Nat.repr n.natAbs else Nat.repr n.natAbs

/-- JavaScript `String(x)` / `x.toString()` for a number: the shortest
decimal notation, which for an exact decimal is the representation with
trailing fractional zeros removed. -/
def jsNumToString (x : JSNum) : String :=
  let ne := stripZeros x.num x.exp
  if ne.2 == 0 then intRepr ne.1
  else
    let digits := Nat.repr ne.1.natAbs
    let padded := List.replicate (ne.2 + 1 - digits.length) '0' ++ digits.data
    let intPart := padded.take (padded.length - ne.2)
    let fracPart := padded.drop (padded.length - ne.2)
    (if ne.1 < 0 then "-" else "") ++ String.mk intPart ++ "." ++ String.mk fracPart

/-- JavaScript `x.toFixed(2)`: round `x * 100` to the nearest integer
(ties toward the larger integer, per the ECMAScript algorithm) and render
with exactly two decimals. -/
def toFixed2 (x : JSNum) : String :=
  let r := Int.fdiv (200 * x.num + Int.ofNat (10 ^ x.exp)) (2 * Int.ofNat (10 ^ x.exp))
  let m := r.natAbs
  (if r < 0 then "-" else "") ++ Nat.repr (m / 100) ++ "." ++
    (if m % 100 < 10 then "0" else "") ++ Nat.repr (m % 100)


/-! ## Validation rules: frontend definitions (src/unnamed/part_000) -/

/-- The value stored in a validation rule: a number, a string, or a list of
strings (`in` / `not_in`). -/
inductive RuleValue where
  | num (d : JSNum)
  | str (s : String)
  | list (l : List String)
  deriving DecidableEq, Repr

/-- Is the stored value a list? -/
def RuleValue.isList : RuleValue → Bool
  | .list _ => true
  | _ => false

/-- Is the stored value a number? -/
def RuleValue.isNum : RuleValue → Bool
  | .num _ => true
  | _ => false

/-- A validation rule as stored in a watcher's video configuration
(`ValidationRule` in the source). -/
structure ValidationRule where
  field : String
  operator : String
  value : RuleValue
  action : String
  description : String
  deriving DecidableEq, Repr

/-- `isNumericField` from the WatcherCreate page (src/unnamed/part_000,
lines 141-150): a field key is numeric when its lowercase form contains one
of the hints. -/
def numericHints : List String :=
  ["duration", "width", "height", "bit_rate", "overall_bit_rate", "sample_rate", "frame_rate",
   "count", "file_size", "level", "bit_depth", "channels"]

/-- `isNumericField(fieldKey?)`; `none` models a missing (falsy) argument. -/
def isNumericField : Option String → Bool
  | none => false
  | some fieldKey => numericHints.any (fun h => strContains (jsToLower fieldKey) h)

/-- `parseRuleValue` from the WatcherCreate page (src/unnamed/part_000,
lines 154-162): `in`/`not_in` split the raw text on commas and trim each
element; numeric fields parse the text as a number (falling back to the raw
string when the parse is NaN); anything else stays the raw string. -/
def parseRuleValueCreate (field : String) (operator : String) (raw : String) : RuleValue :=
  if operator == "in" || operator == "not_in" then
    .list ((splitComma raw).map jsTrim)
  else if isNumericField (some field) then
    match (if strContains raw "." then jsParseFloat raw else jsParseInt raw) with
    | some n => .num n
    | none => .str raw
  else .str raw

/-- `addValidationRule` from the WatcherCreate page (src/unnamed/part_000,
lines 164-178): refuses empty inputs, parses the value, refuses a
non-number for a numeric field, and otherwise returns the stored rule
(`none` models the alert-and-return paths). -/
def addValidationRuleCreate (field operator raw action description : String) :
    Option ValidationRule :=
  if field == "" || operator == "" || raw == "" then none
  else
    let parsedValue := parseRuleValueCreate field operator raw
    if isNumericField (some field) && !parsedValue.isNum then none
    else some { field := field, operator := operator, value := parsedValue,
                action := if action == "" then "reject" else action,
                description := description }

/-- A raw form value on the Watchers page: the inputs produce strings, but
`parseRuleValue` also accepts an already-numeric value. -/
inductive RawValue where
  | str (s : String)
  | num (d : JSNum)
  deriving DecidableEq, Repr

/-- JavaScript `String(raw)`. -/
def RawValue.display : RawValue → String
  | .str s => s
  | .num d => jsNumToString d

/-- `parseRuleValue` from the Watchers page (src/unnamed/part_000, lines
983-990): `in`/`not_in` split on commas and trim; a string parses with
`parseFloat` when it contains a dot and `parseInt` otherwise (`none` is the
NaN outcome); a number passes through. -/
def parseRuleValueWatchers (operator : String) (raw : RawValue) : Option RuleValue :=
  if operator == "in" || operator == "not_in" then
    some (.list ((splitComma raw.display).map jsTrim))
  else match raw with
    | .str s => if strContains s "." then (jsParseFloat s).map .num else (jsParseInt s).map .num
    | .num d => some (.num d)

/-- `addValidationRule` from the Watchers page (src/unnamed/part_000, lines
992-1027): refuses empty inputs, parses, and refuses a NaN value for every
operator other than `in`/`not_in` (for which the parse always yields a
list).  `saveEditRule` (lines 1053-1080) stores through the same parse and
the same NaN check. -/
def addValidationRuleWatchers (field operator : String) (raw : RawValue)
    (action description : String) : Option ValidationRule :=
  if field == "" || operator == "" || raw == .str "" then none
  else match parseRuleValueWatchers operator raw with
    | none => none
    | some v => some { field := field, operator := operator, value := v,
                       action := if action == "" then "reject" else action,
                       description := description }

/-! ## ValidationEngine (modelled from the spec) -/

/-- A scalar metadata value as extracted for one namespaced key. -/
inductive MetaValue where
  | num (d : JSNum)
  | str (s : String)
  deriving DecidableEq, Repr

/-- An extracted metadata map: namespaced key to scalar value. -/
def Metadata := List (String × MetaValue)

/-- JavaScript string form of a metadata value. -/
def MetaValue.display : MetaValue → String
  | .num d => jsNumToString d
  | .str s => s

/-- Parse a metadata value as a number (spec 4.4 step 2). -/
def MetaValue.toNum : MetaValue → Option JSNum
  | .num d => some d
  | .str s => jsParseFloat s

/-- Parse a rule value as a number; a list value has no numeric form. -/
def RuleValue.toNum : RuleValue → Option JSNum
  | .num d => some d
  | .str s => jsParseFloat s
  | .list _ => none

/-- String form of a scalar rule value. -/
def RuleValue.display : RuleValue → String
  | .num d => jsNumToString d
  | .str s => s
  | .list _ => ""

/-- Modelled from the spec: scalar comparison operators on numbers
(spec 4.4 step 3; an unknown operator never holds). -/
def numCompare (operator : String) (a b : JSNum) : Bool :=
  if operator == ">" then JSNum.blt b a
  else if operator == "<" then JSNum.blt a b
  else if operator == ">=" then JSNum.ble b a
  else if operator == "<=" then JSNum.ble a b
  else if operator == "==" then JSNum.beq a b
  else if operator == "!=" then !JSNum.beq a b
  else false

/-- Modelled from the spec: case-sensitive string comparison (spec 4.4
step 2: non-numeric fields compare as case-sensitive strings). -/
def strCompare (operator : String) (a b : String) : Bool :=
  if operator == "==" then a == b
  else if operator == "!=" then a != b
  else false

/-- Modelled from the spec: duration normalization.  The extractor reports
durations in milliseconds and the engine converts them to seconds before
applying the operator (spec 4.4 step 2 and the UI note at
src/unnamed/part_000 lines 1264-1268). -/
def normalizeDuration (field : String) (a : JSNum) : JSNum :=
  if strContains (jsToLower field) "duration" then a.divPow10 3 else a

/-- Modelled from the spec: does the rule's condition hold for the given
actual value (spec 4.4 steps 2-3)?  `in`/`not_in` compare the string form
of the actual value against the rule's list; numeric fields (per the
source's `isNumericField`) coerce both sides to numbers, normalizing
durations, and a failed parse (or a malformed scalar/list mismatch) never
holds; all other fields compare as case-sensitive strings. -/
def condHolds (r : ValidationRule) (actual : MetaValue) : Bool :=
  if r.operator == "in" || r.operator == "not_in" then
    match r.value with
    | .list l =>
      if r.operator == "in" then l.contains actual.display else !(l.contains actual.display)
    | _ => false
  else if isNumericField (some r.field) then
    match actual.toNum, r.value.toNum with
    | some a, some b => numCompare r.operator (normalizeDuration r.field a) b
    | _, _ => false
  else match r.value with
    | .list _ => false
    | _ => strCompare r.operator actual.display r.value.display

/-- Modelled from the spec: does the rule fail the file (spec 4.4 steps 1
and 4)?  A rule whose field is absent from the metadata is unevaluable and
never fails; a `reject` rule fails when its condition holds; an `accept`
rule fails when its condition does not hold. -/
def ruleFails (md : Metadata) (r : ValidationRule) : Bool :=
  match List.lookup r.field md with
  | none => false
  | some v => if r.action == "reject" then condHolds r v else !condHolds r v

/-- A `failed_rules` entry (spec 4.4: field, operator, value, actual value,
action, description). -/
structure RuleOutcome where
  field : String
  operator : String
  value : RuleValue
  actual_value : Option MetaValue
  action : String
  description : String
  deriving DecidableEq, Repr

/-- The outcome record for a rule. -/
def ruleOutcome (md : Metadata) (r : ValidationRule) : RuleOutcome :=
  { field := r.field, operator := r.operator, value := r.value,
    actual_value := List.lookup r.field md, action := r.action,
    description := r.description }

/-- The result of `ValidationEngine.evaluate` (spec 4.4). -/
structure ValidationResult where
  valid : Bool
  rules_checked : Nat
  failed_rules : List RuleOutcome
  deriving DecidableEq, Repr

/-- Modelled from the spec: `ValidationEngine.evaluate(metadata, rules)`
(spec 4.4).  Every rule is evaluated (no short-circuit); `rules_checked`
counts the rules whose field resolved; `valid` is true exactly when
`failed_rules` stayed empty. -/
def evaluate (md : Metadata) (rules : List ValidationRule) : ValidationResult :=
  let failed := (rules.filter (fun r => ruleFails md r)).map (ruleOutcome md)
  { valid := failed.isEmpty,
    rules_checked := (rules.filter (fun r => (List.lookup r.field md).isSome)).length,
    failed_rules := failed }

/-- The spec's numeric-coercion example: `video_height > 1080`. -/
def heightRule : ValidationRule :=
  { field := "video_height", operator := ">", value := .num ⟨1080, 0⟩,
    action := "reject", description := "" }

/-- The spec's duration-normalization example: `general_duration < 30`. -/
def durationRule : ValidationRule :=
  { field := "general_duration", operator := "<", value := .num ⟨30, 0⟩,
    action := "reject", description := "" }

/-- The spec's scenario rule: `general_format_name in [MP4, AVI, MKV]`,
action `accept`. -/
def formatRule : ValidationRule :=
  { field := "general_format_name", operator := "in",
    value := .list ["MP4", "AVI", "MKV"], action := "accept", description := "" }

/-! ## Watcher creation (WatcherCreate page, src/unnamed/part_000) -/

/-- The video metadata configuration held by the WatcherCreate page
(src/unnamed/part_000, lines 21-31). -/
structure VideoMetadataConfig where
  extract_video_metadata : Bool
  video_fields : List String
  audio_fields : List String
  general_fields : List String
  custom_fields : List String
  enable_validation : Bool
  validation_rules : List ValidationRule
  reject_handling : String
  reject_move_to_dir : Option String
  deriving DecidableEq, Repr

/-- The `video_config` part of the payload built by `submit` on the
WatcherCreate page (src/unnamed/part_000, lines 180-191):
`videoConfig.extract_video_metadata ? videoConfig : null`. -/
def submitVideoConfig (vc : VideoMetadataConfig) : Option VideoMetadataConfig :=
  if vc.extract_video_metadata then some vc else none

/-- Modelled from the spec: the data-model invariant of section 3 — when
`extract_metadata` is false, validation is treated as disabled regardless
of the stored `enable_validation`; an absent video configuration never
validates. -/
def validationActive : Option VideoMetadataConfig → Bool
  | none => false
  | some vc => vc.extract_video_metadata && vc.enable_validation

/-! ## FileEventFilter (modelled from the spec, section 4.2) -/

/-- The kind of a raw filesystem notification. -/
inductive EventKind where
  | created
  | modified
  | deleted
  deriving DecidableEq, Repr

/-- The configured name of a notification kind. -/
def kindName : EventKind → String
  | .created => "created"
  | .modified => "modified"
  | .deleted => "deleted"

/-- The part of a watcher's configuration the filter consults. -/
structure FilterConfig where
  event_types : List String
  auto_delete_excluded : Bool
  deriving DecidableEq, Repr

/-- The filter's verdict on one raw notification. -/
inductive FilterDecision where
  | drop
  | dropAndDelete
  | pass
  deriving DecidableEq, Repr

/-- Modelled from the spec: the FileEventFilter decision algorithm
(spec 4.2, steps 1-5), with the PatternMatcher results supplied as the
booleans `isIncluded` and `isExcluded`.  A kind outside the watcher's
`event_types` is dropped with no side effect; an excluded or non-included
path is dropped, deleting the file exactly when `auto_delete_excluded`
holds, the kind is not `deleted` and the file still exists; everything else
passes through for enrichment. -/
def fileEventFilter (cfg : FilterConfig) (kind : EventKind)
    (isIncluded isExcluded fileStillExists : Bool) : FilterDecision :=
  if !(cfg.event_types.contains (kindName kind)) then .drop
  else if !isIncluded || isExcluded then
    if cfg.auto_delete_excluded && kind != .deleted && fileStillExists then .dropAndDelete
    else .drop
  else .pass

/-- Does the verdict delete the file from disk? -/
def deletesFile (d : FilterDecision) : Bool := d == .dropAndDelete

/-- Does the verdict let the notification through to Event recording? -/
def recordsEvent (d : FilterDecision) : Bool := d == .pass

/-! ## WatcherManager (modelled from the spec, section 4.6) -/

/-- Modelled from the spec: `WatcherManager.start(id)` over the registry of
running watcher ids.  Starting an already-running id returns success and
leaves the registry unchanged; otherwise the new session is registered.
The returned flag is the success result. -/
def startWatcher (id : Nat) (running : List Nat) : Bool × List Nat :=
  (true, if running.contains id then running else id :: running)

/-- Modelled from the spec: `WatcherManager.stop(id)`.  Stopping removes
every session registered for the id (a no-op success when none is). -/
def stopWatcher (id : Nat) (running : List Nat) : Bool × List Nat :=
  (true, running.filter (fun x => x != id))

/-- Modelled from the spec: `WatcherManager.isRunning(id)`. -/
def isRunningW (id : Nat) (running : List Nat) : Bool := running.contains id

/-! ## Watchers page: latest event per watcher (src/unnamed/part_000) -/

/-- `EventItem` as the Watchers page receives it (src/unnamed/part_000,
line 802). -/
structure EventItem where
  id : Nat
  watcher_id : Nat
  event_type : String
  file_path : String
  created_at : Option String
  deriving DecidableEq, Repr

/-- The loop body state of `load` (src/unnamed/part_000, lines 871-875):
walk the events in order, keeping only the first event seen for each
watcher id. -/
def latestByWatcherAux (m : List (Nat × EventItem)) : List EventItem → List (Nat × EventItem)
  | [] => m
  | e :: rest =>
    latestByWatcherAux
      (if (List.lookup e.watcher_id m).isSome then m else m ++ [(e.watcher_id, e)]) rest

/-- The `latestByWatcher` map computed by `load` on the Watchers page. -/
def latestByWatcher (events : List EventItem) : List (Nat × EventItem) :=
  latestByWatcherAux [] events

/-! ## Events page (src/frontend/src/pages/Events.tsx) -/

/-- An event row as the Events page receives it (Events.tsx, lines 4-12). -/
structure EventRow where
  id : Nat
  watcher_id : Nat
  event_type : String
  file_path : String
  created_at : Option String
  deriving DecidableEq, Repr

/-- The filter state of the Events page (Events.tsx, line 17); `endTime`
embeds the source's `end` field, which is a reserved word in Lean. -/
structure EventFilters where
  id : String
  watcher : String
  type : String
  path : String
  start : String
  endTime : String
  deriving DecidableEq, Repr

/-- The date-range portion of `filteredItems` (Events.tsx, lines 200-212),
parameterized by the JavaScript `Date` parser (`new Date(s).getTime()`,
with `none` standing for a non-finite result).  When a start or end filter
is set, an event without `created_at` is excluded; a boundary that fails to
parse is skipped; an event timestamp that fails to parse compares false on
both bounds and is therefore not excluded by them. -/
def dateOk (parseDate : String → Option Int) (f : EventFilters) (e : EventRow) : Bool :=
  if f.start != "" || f.endTime != "" then
    match e.created_at with
    | none => false
    | some ca =>
      if ca == "" then false
      else
        (match (if f.start != "" then parseDate f.start else none), parseDate ca with
          | some s, some t => !(t < s)
          | _, _ => true) &&
        (match (if f.endTime != "" then parseDate f.endTime else none), parseDate ca with
          | some en, some t => !(en < t)
          | _, _ => true)
  else true

/-- The per-event predicate of `filteredItems` (Events.tsx, lines 182-215),
with the same early-return structure as the source. -/
def eventPasses (parseDate : String → Option Int) (f : EventFilters) (e : EventRow) : Bool :=
  if jsTrim f.id != "" && !strContains (Nat.repr e.id) (jsTrim f.id) then false
  else if jsTrim f.watcher != "" && !strContains (Nat.repr e.watcher_id) (jsTrim f.watcher) then
    false
  else if jsTrim f.type != "" && jsToLower e.event_type != jsToLower (jsTrim f.type) then false
  else if jsTrim f.path != "" && !strContains (jsToLower e.file_path) (jsToLower (jsTrim f.path))
    then false
  else dateOk parseDate f e

/-- `filteredItems` (Events.tsx, lines 182-215). -/
def filteredItems (parseDate : String → Option Int) (f : EventFilters)
    (items : List EventRow) : List EventRow :=
  items.filter (eventPasses parseDate f)

/-- The ID-filter clause of `filteredItems`, as a standalone conjunct. -/
def idOk (f : EventFilters) (e : EventRow) : Bool :=
  !(jsTrim f.id != "" && !strContains (Nat.repr e.id) (jsTrim f.id))

/-- The watcher-filter clause of `filteredItems`. -/
def watcherOk (f : EventFilters) (e : EventRow) : Bool :=
  !(jsTrim f.watcher != "" && !strContains (Nat.repr e.watcher_id) (jsTrim f.watcher))

/-- The type-filter clause of `filteredItems`. -/
def typeOk (f : EventFilters) (e : EventRow) : Bool :=
  !(jsTrim f.type != "" && jsToLower e.event_type != jsToLower (jsTrim f.type))

/-- The path-filter clause of `filteredItems`. -/
def pathOk (f : EventFilters) (e : EventRow) : Bool :=
  !(jsTrim f.path != "" && !strContains (jsToLower e.file_path) (jsToLower (jsTrim f.path)))

/-- A JavaScript value as `formatMetadataValue` receives it. -/
inductive JSValue where
  | null
  | undef
  | num (d : JSNum)
  | str (s : String)
  deriving DecidableEq, Repr

/-- `formatMetadataValue` (Events.tsx, lines 59-68): null and undefined
render as `N/A`; a number above 1,000,000 is scaled to millions with two
decimals, a number above 1,000 to thousands; everything else renders with
`toString`. -/
def formatMetadataValue : JSValue → String
  | .null => "N/A"
  | .undef => "N/A"
  | .num v =>
    if JSNum.blt (JSNum.ofInt 1000000) v then toFixed2 (v.divPow10 6) ++ "M"
    else if JSNum.blt (JSNum.ofInt 1000) v then toFixed2 (v.divPow10 3) ++ "K"
    else jsNumToString v
  | .str s => s


/-! ## Correctness of the decimal comparisons -/

/-- Cross-multiplied comparison agrees with the rational values. -/
theorem JSNum.blt_eq_true_iff (a b : JSNum) : JSNum.blt a b = true ↔ a.toRat < b.toRat := by
  rw [JSNum.blt, decide_eq_true_eq, JSNum.toRat, JSNum.toRat,
    div_lt_div_iff₀ (by positivity) (by positivity)]
  constructor <;> intro h <;> exact_mod_cast h

/-- Cross-multiplied equality agrees with the rational values. -/
theorem JSNum.beq_eq_true_iff (a b : JSNum) : JSNum.beq a b = true ↔ a.toRat = b.toRat := by
  rw [JSNum.beq, decide_eq_true_eq, JSNum.toRat, JSNum.toRat,
    div_eq_div_iff (by positivity) (by positivity)]
  constructor <;> intro h <;> exact_mod_cast h

/-! ## The claims -/

/-- The metadata map of the spec scenario: a `.mov` file whose extracted
`general_format_name` is `MOV`. -/
def movMetadata : Metadata := [("general_format_name", .str "MOV")]

/-- C1: `evaluate` returns `valid = true` iff no rule failed; a `reject`
rule fails exactly when its condition holds and an `accept` rule fails
exactly when its condition does not hold (for a rule whose field resolves —
a rule whose field is absent never fails, per spec 4.4 step 1); and on the
scenario metadata `general_format_name = "MOV"` with the accept rule
`general_format_name in [MP4, AVI, MKV]`, the result is invalid with
exactly one failed rule. -/
theorem evaluate_valid_iff_no_rule_fails :
    (∀ (md : Metadata) (rules : List ValidationRule),
      (evaluate md rules).valid = true ↔ ∀ r ∈ rules, ruleFails md r = false) ∧
    (∀ (md : Metadata) (r : ValidationRule) (v : MetaValue),
      List.lookup r.field md = some v →
        (r.action = "reject" → (ruleFails md r = true ↔ condHolds r v = true)) ∧
        (r.action = "accept" → (ruleFails md r = true ↔ condHolds r v = false))) ∧
    (evaluate movMetadata [formatRule]).valid = false ∧
    (evaluate movMetadata [formatRule]).failed_rules.length = 1 := by
  refine ⟨?_, ?_, by decide, by decide⟩
  · intro md rules
    simp [evaluate, List.isEmpty_iff, List.map_eq_nil_iff, List.filter_eq_nil_iff]
  · intro md r v h
    constructor
    · intro ha
      have hb : (r.action == "reject") = true := by rw [ha]; decide
      simp [ruleFails, h, hb]
    · intro ha
      have hb : (r.action == "reject") = false := by rw [ha]; decide
      simp [ruleFails, h, hb]

/-- C1 witness: the scenario rule's field resolves in the scenario
metadata, and the accept rule fails there exactly because its condition
does not hold. -/
theorem evaluate_valid_iff_no_rule_fails_witness :
    List.lookup formatRule.field movMetadata = some (.str "MOV") ∧
    formatRule.action = "accept" ∧
    (ruleFails movMetadata formatRule = true ↔ condHolds formatRule (.str "MOV") = false) :=
  ⟨by decide, by decide,
    (evaluate_valid_iff_no_rule_fails.2.1 movMetadata formatRule (.str "MOV") (by decide)).2
      (by decide)⟩

/-- The numeric-field criterion exactly as claim C2 words it: the field
name matches (contains) one of duration, width, height, bit_rate,
frame_rate, sample_rate, channels, file_size, bit_depth, or contains
`count`. -/
def claimNumericFieldC2 (field : String) : Bool :=
  (["duration", "width", "height", "bit_rate", "frame_rate", "sample_rate", "channels",
    "file_size", "bit_depth"].any (fun h => strContains (jsToLower field) h)) ||
  strContains (jsToLower field) "count"

/-- A rule on the `video_level` field, which the source treats as numeric
but claim C2's field list does not. -/
def levelRule : ValidationRule :=
  { field := "video_level", operator := "==", value := .str "4",
    action := "reject", description := "" }

/-- A membership rule on the numeric field `video_height`: values are
compared as strings, not coerced, under `in`. -/
def heightInRule : ValidationRule :=
  { field := "video_height", operator := "in", value := .list ["2160"],
    action := "reject", description := "" }

/-- C2 counterexample: the source's `isNumericField` also accepts fields
containing `level`, which claim C2's list omits — `video_level` is coerced
(the string values "4.0" and "4" compare equal as numbers, not as
case-sensitive strings); and under `in` the values are compared as a string
list even on a numeric field, never coerced. -/
theorem coercion_claim_counterexample :
    isNumericField (some "video_level") = true ∧
    claimNumericFieldC2 "video_level" = false ∧
    condHolds levelRule (.str "4.0") = true ∧
    strCompare "==" "4.0" "4" = false ∧
    isNumericField (some "video_height") = true ∧
    condHolds heightInRule (.str "2160.0") = false ∧
    JSNum.beq ⟨21600, 1⟩ ⟨2160, 0⟩ = true := by decide

/-- C2 (amended): for a scalar operator, both sides are coerced to numbers
exactly when the source's `isNumericField` accepts the field name — its
lowercase form contains one of duration, width, height, bit_rate,
overall_bit_rate, sample_rate, frame_rate, count, file_size, level,
bit_depth, channels; otherwise the comparison is on case-sensitive strings
(`in`/`not_in` compare string lists).  The string-typed value "2160" under
rule `video_height > 1080` holds after coercion. -/
theorem coercion_iff_numeric_field :
    (∀ (r : ValidationRule) (v : MetaValue),
        isNumericField (some r.field) = true →
        (r.operator == "in" || r.operator == "not_in") = false →
        condHolds r v = (match v.toNum, r.value.toNum with
          | some a, some b => numCompare r.operator (normalizeDuration r.field a) b
          | _, _ => false)) ∧
    (∀ (r : ValidationRule) (v : MetaValue),
        isNumericField (some r.field) = false →
        (r.operator == "in" || r.operator == "not_in") = false →
        condHolds r v = (match r.value with
          | .list _ => false
          | _ => strCompare r.operator v.display r.value.display)) ∧
    condHolds heightRule (.str "2160") = true := by
  refine ⟨?_, ?_, by decide⟩
  · intro r v h1 h2
    simp [condHolds, h1, h2]
  · intro r v h1 h2
    simp [condHolds, h1, h2]

/-- C2 witness: the amended coercion rule applied to `video_height > 1080`
against the string value "2160". -/
theorem coercion_iff_numeric_field_witness :
    isNumericField (some heightRule.field) = true ∧
    (heightRule.operator == "in" || heightRule.operator == "not_in") = false ∧
    condHolds heightRule (.str "2160")
      = (match (MetaValue.str "2160").toNum, heightRule.value.toNum with
          | some a, some b => numCompare heightRule.operator (normalizeDuration heightRule.field a) b
          | _, _ => false) :=
  ⟨by decide, by decide,
    coercion_iff_numeric_field.1 heightRule (.str "2160") (by decide) (by decide)⟩

/-- C3: for every rule on a duration field (a field name containing
`duration`) with a scalar operator, the raw (millisecond) actual value is
divided by 1000 before the operator is applied to it and the rule's bound —
and dividing by `10 ^ 3` is exactly division of the value by 1000; in
particular `general_duration < 30` holds for a raw integer duration exactly
when its value over 1000 is below 30, so a raw duration of 45000
(i.e. 45 seconds) does not satisfy it. -/
theorem duration_normalized_to_seconds :
    (∀ (r : ValidationRule) (v : MetaValue) (a : JSNum),
        strContains (jsToLower r.field) "duration" = true →
        (r.operator == "in" || r.operator == "not_in") = false →
        v.toNum = some a →
        condHolds r v = (match r.value.toNum with
          | some b => numCompare r.operator (a.divPow10 3) b
          | none => false)) ∧
    (∀ a : JSNum, (a.divPow10 3).toRat = a.toRat / 1000) ∧
    (∀ rawMs : Int,
        (condHolds durationRule (.num (JSNum.ofInt rawMs)) = true ↔ (rawMs : ℚ) / 1000 < 30)) ∧
    condHolds durationRule (.num ⟨45000, 0⟩) = false := by
  refine ⟨?_, ?_, ?_, by decide⟩
  · intro r v a hdur hop hv
    have hnum : isNumericField (some r.field) = true := by
      simp only [isNumericField, numericHints, List.any_cons, List.any_nil, Bool.or_eq_true]
      exact Or.inl hdur
    have hnorm : normalizeDuration r.field a = a.divPow10 3 := by
      simp [normalizeDuration, hdur]
    simp only [condHolds, hop, Bool.false_eq_true, if_false, hnum, if_true, hv]
    cases r.value.toNum <;> simp [hnorm]
  · intro a
    simp only [JSNum.divPow10, JSNum.toRat, pow_add]
    rw [div_div]
    norm_num
  · intro rawMs
    have h1 : condHolds durationRule (.num (JSNum.ofInt rawMs))
        = JSNum.blt ((JSNum.ofInt rawMs).divPow10 3) ⟨30, 0⟩ := by
      have hnum : isNumericField (some "general_duration") = true := by decide
      have hdur : strContains (jsToLower "general_duration") "duration" = true := by decide
      simp [condHolds, durationRule, normalizeDuration, MetaValue.toNum, RuleValue.toNum,
        numCompare, JSNum.ofInt, hnum, hdur]
    rw [h1, JSNum.blt_eq_true_iff]
    show (rawMs : ℚ) / 10 ^ ((JSNum.ofInt rawMs).exp + 3) < (30 : ℚ) / 10 ^ (0 : ℕ) ↔ _
    norm_num [JSNum.ofInt]

/-- C3 witness: the duration-field characterization applied to the rule
`general_duration < 30` and the raw value 45000: the condition is the
operator applied to 45000 / 1000. -/
theorem duration_normalized_to_seconds_witness :
    strContains (jsToLower durationRule.field) "duration" = true ∧
    (durationRule.operator == "in" || durationRule.operator == "not_in") = false ∧
    (MetaValue.num ⟨45000, 0⟩).toNum = some ⟨45000, 0⟩ ∧
    condHolds durationRule (.num ⟨45000, 0⟩)
      = (match durationRule.value.toNum with
          | some b => numCompare durationRule.operator (JSNum.divPow10 ⟨45000, 0⟩ 3) b
          | none => false) :=
  ⟨by decide, by decide, by decide,
    duration_normalized_to_seconds.1 durationRule (.num ⟨45000, 0⟩) ⟨45000, 0⟩
      (by decide) (by decide) (by decide)⟩

/-- C5: when metadata extraction is off, validation is off: the modelled
invariant treats `enable_validation` as false whenever
`extract_video_metadata` is false, and the WatcherCreate `submit` payload
carries `video_config = null` for such a watcher. -/
theorem no_validation_without_extraction :
    (∀ vc : VideoMetadataConfig, vc.extract_video_metadata = false →
        validationActive (some vc) = false ∧ submitVideoConfig vc = none) ∧
    validationActive none = false := by
  refine ⟨?_, rfl⟩
  intro vc h
  constructor
  · simp [validationActive, h]
  · simp [submitVideoConfig, h]

/-- A watcher video configuration with extraction off but the stored
`enable_validation` flag still set. -/
def extractionOffConfig : VideoMetadataConfig :=
  { extract_video_metadata := false, video_fields := [], audio_fields := [],
    general_fields := [], custom_fields := [], enable_validation := true,
    validation_rules := [], reject_handling := "delete", reject_move_to_dir := none }

/-- C5 witness: a configuration with extraction off and `enable_validation`
stored as true neither validates nor reaches the creation payload. -/
theorem no_validation_without_extraction_witness :
    extractionOffConfig.extract_video_metadata = false ∧
    validationActive (some extractionOffConfig) = false ∧
    submitVideoConfig extractionOffConfig = none :=
  ⟨rfl,
    (no_validation_without_extraction.1 extractionOffConfig rfl).1,
    (no_validation_without_extraction.1 extractionOffConfig rfl).2⟩

/-- For a scalar operator the create-page parse never yields a list. -/
theorem parseRuleValueCreate_not_list (field operator raw : String)
    (h : (operator == "in" || operator == "not_in") = false) :
    (parseRuleValueCreate field operator raw).isList = false := by
  rw [parseRuleValueCreate]
  simp only [h]
  split
  · simp_all
  · split
    · split <;> simp [RuleValue.isList]
    · simp [RuleValue.isList]

/-- For a scalar operator the Watchers-page parse never yields a list. -/
theorem parseRuleValueWatchers_not_list (operator : String) (raw : RawValue) (v : RuleValue)
    (h : (operator == "in" || operator == "not_in") = false)
    (hp : parseRuleValueWatchers operator raw = some v) : v.isList = false := by
  unfold parseRuleValueWatchers at hp
  simp only [h, Bool.false_eq_true, if_false] at hp
  cases raw with
  | str s =>
    simp only at hp
    split at hp <;>
      (simp only [Option.map_eq_some'] at hp
       obtain ⟨a, -, rfl⟩ := hp
       simp [RuleValue.isList])
  | num d =>
    simp only at hp
    cases hp
    simp [RuleValue.isList]

/-- C4: each rule-adding operation stores a list value exactly for the
`in`/`not_in` operators — and that list is the comma-split, trimmed form of
the raw input; every other operator stores a scalar. -/
theorem stored_rule_value_list_iff_in :
    (∀ (field operator raw action description : String) (r : ValidationRule),
        addValidationRuleCreate field operator raw action description = some r →
        (r.value.isList = true ↔ (operator == "in" || operator == "not_in") = true) ∧
        ((operator == "in" || operator == "not_in") = true →
          r.value = .list ((splitComma raw).map jsTrim))) ∧
    (∀ (field operator : String) (raw : RawValue) (action description : String)
        (r : ValidationRule),
        addValidationRuleWatchers field operator raw action description = some r →
        (r.value.isList = true ↔ (operator == "in" || operator == "not_in") = true) ∧
        ((operator == "in" || operator == "not_in") = true →
          r.value = .list ((splitComma raw.display).map jsTrim))) := by
  constructor
  · intro field operator raw action description r h
    simp only [addValidationRuleCreate] at h
    cases hA : (field == "" || operator == "" || raw == "") with
    | true => simp [hA] at h
    | false =>
      simp only [hA, Bool.false_eq_true, if_false] at h
      cases hB : (isNumericField (some field) && !(parseRuleValueCreate field operator raw).isNum) with
      | true => simp [hB] at h
      | false =>
        simp only [hB, Bool.false_eq_true, if_false, Option.some.injEq] at h
        subst h
        cases hop : (operator == "in" || operator == "not_in") with
        | true =>
          refine ⟨by simp [parseRuleValueCreate, hop, RuleValue.isList], ?_⟩
          intro
          simp [parseRuleValueCreate, hop]
        | false =>
          refine ⟨by simp [parseRuleValueCreate_not_list field operator raw hop], ?_⟩
          intro hcon
          simp [hop] at hcon
  · intro field operator raw action description r h
    simp only [addValidationRuleWatchers] at h
    cases hA : (field == "" || operator == "" || raw == RawValue.str "") with
    | true => simp [hA] at h
    | false =>
      simp only [hA, Bool.false_eq_true, if_false] at h
      cases hv : parseRuleValueWatchers operator raw with
      | none => rw [hv] at h; cases h
      | some v =>
        rw [hv] at h
        simp only [Option.some.injEq] at h
        subst h
        cases hop : (operator == "in" || operator == "not_in") with
        | true =>
          unfold parseRuleValueWatchers at hv
          simp only [hop, if_true, Option.some.injEq] at hv
          subst hv
          exact ⟨by simp [RuleValue.isList], fun _ => rfl⟩
        | false =>
          refine ⟨by simp [parseRuleValueWatchers_not_list operator raw v hop hv], ?_⟩
          intro hcon
          simp [hop] at hcon

/-- C4 witness: adding `general_format_name in "MP4, AVI,MKV"` through the
create page stores the comma-split, trimmed list. -/
theorem stored_rule_value_list_iff_in_witness :
    addValidationRuleCreate "general_format_name" "in" "MP4, AVI,MKV" "accept" ""
      = some { field := "general_format_name", operator := "in",
               value := .list ["MP4", "AVI", "MKV"], action := "accept", description := "" } ∧
    (("in" == "in" || "in" == "not_in") = true →
      RuleValue.list ["MP4", "AVI", "MKV"] = .list ((splitComma "MP4, AVI,MKV").map jsTrim)) :=
  ⟨by decide,
    (stored_rule_value_list_iff_in.1 "general_format_name" "in" "MP4, AVI,MKV" "accept" ""
      { field := "general_format_name", operator := "in",
        value := .list ["MP4", "AVI", "MKV"], action := "accept", description := "" }
      (by decide)).2⟩

/-- A filter configuration that only records deletions. -/
def deleteOnlyConfig : FilterConfig := { event_types := ["deleted"], auto_delete_excluded := true }

/-- C6 counterexample: a non-included `created` notification on a watcher
whose `event_types` does not contain `created` is dropped at step 1 with no
side effect — the file is not deleted even though `auto_delete_excluded` is
true, the kind is not `deleted`, and the file exists. -/
theorem auto_delete_claim_counterexample :
    deleteOnlyConfig.auto_delete_excluded = true ∧
    fileEventFilter deleteOnlyConfig .created false false true = .drop ∧
    deletesFile (fileEventFilter deleteOnlyConfig .created false false true) = false := by
  decide

/-- C6 (amended): for a raw notification whose kind is among the watcher's
`event_types`, whose path is not included or is excluded, with
`auto_delete_excluded` on, a kind other than `deleted` and a still-existing
file, the filter deletes the file and drops the notification without
recording an Event. -/
theorem excluded_file_deleted_no_event :
    ∀ (cfg : FilterConfig) (kind : EventKind) (isIncluded isExcluded : Bool),
      cfg.event_types.contains (kindName kind) = true →
      (isIncluded = false ∨ isExcluded = true) →
      cfg.auto_delete_excluded = true →
      kind ≠ .deleted →
      fileEventFilter cfg kind isIncluded isExcluded true = .dropAndDelete ∧
      deletesFile (fileEventFilter cfg kind isIncluded isExcluded true) = true ∧
      recordsEvent (fileEventFilter cfg kind isIncluded isExcluded true) = false := by
  intro cfg kind isIncluded isExcluded h1 h2 h3 h4
  have hk : (kind != EventKind.deleted) = true := by
    cases kind <;> simp_all
  have hie : (!isIncluded || isExcluded) = true := by
    rcases h2 with h | h <;> simp [h]
  have hmem : kindName kind ∈ cfg.event_types := by
    simpa using h1
  have : fileEventFilter cfg kind isIncluded isExcluded true = .dropAndDelete := by
    simp [fileEventFilter, hmem, hie, h3, hk]
  exact ⟨this, by rw [this]; rfl, by rw [this]; rfl⟩

/-- The default watcher configuration's filter settings
(src/unnamed/part_000, lines 49-55). -/
def defaultFilterConfig : FilterConfig :=
  { event_types := ["created", "modified", "deleted", "rejected"], auto_delete_excluded := true }

/-- C6 witness: under the default configuration, a non-included `created`
file that still exists is deleted and produces no Event. -/
theorem excluded_file_deleted_no_event_witness :
    defaultFilterConfig.event_types.contains (kindName .created) = true ∧
    defaultFilterConfig.auto_delete_excluded = true ∧
    (fileEventFilter defaultFilterConfig .created false false true = .dropAndDelete ∧
     deletesFile (fileEventFilter defaultFilterConfig .created false false true) = true ∧
     recordsEvent (fileEventFilter defaultFilterConfig .created false false true) = false) :=
  ⟨by decide, by decide,
    excluded_file_deleted_no_event defaultFilterConfig .created false false (by decide)
      (Or.inl rfl) (by decide) (by decide)⟩

/-- C7: `start` and `stop` are idempotent — starting twice leaves the
registry of the first start and yields exactly one live session for the id
(given the at-most-one-session invariant); stopping twice equals stopping
once and leaves no session; both always report success; and `isRunning`
reflects the registry. -/
theorem start_stop_idempotent :
    (∀ (id : Nat) (r : List Nat),
        (startWatcher id (startWatcher id r).2).2 = (startWatcher id r).2 ∧
        (startWatcher id r).1 = true) ∧
    (∀ (id : Nat) (r : List Nat), r.count id ≤ 1 →
        ((startWatcher id (startWatcher id r).2).2).count id = 1) ∧
    (∀ (id : Nat) (r : List Nat),
        (stopWatcher id (stopWatcher id r).2).2 = (stopWatcher id r).2 ∧
        (stopWatcher id r).1 = true) ∧
    (∀ (id : Nat) (r : List Nat), ((stopWatcher id (stopWatcher id r).2).2).count id = 0) ∧
    (∀ (id : Nat) (r : List Nat),
        isRunningW id (startWatcher id r).2 = true ∧
        isRunningW id (stopWatcher id r).2 = false) := by
  refine ⟨?_, ?_, ?_, ?_, ?_⟩
  · intro id r
    refine ⟨?_, rfl⟩
    by_cases hm : id ∈ r <;> simp [startWatcher, hm]
  · intro id r hle
    by_cases hm : id ∈ r
    · have hpos : 0 < r.count id := List.count_pos_iff.mpr hm
      simp only [startWatcher]
      simp [hm]
      omega
    · have hzero : r.count id = 0 := List.count_eq_zero.mpr hm
      simp only [startWatcher]
      simp [hm, List.count_cons_self]
      omega
  · intro id r
    refine ⟨?_, rfl⟩
    simp only [stopWatcher]
    rw [List.filter_filter]
    simp
  · intro id r
    rw [List.count_eq_zero]
    intro hm
    simp only [stopWatcher, List.mem_filter] at hm
    simp at hm
  · intro id r
    constructor
    · by_cases hm : id ∈ r <;> simp [startWatcher, isRunningW, hm]
    · simp only [stopWatcher, isRunningW]
      rw [← Bool.not_eq_true]
      intro hc
      have := List.elem_iff.mp hc
      simp [List.mem_filter] at this

/-- C7 witness: starting watcher 5 twice on a registry already holding it
keeps exactly one session. -/
theorem start_stop_idempotent_witness :
    List.count 5 [5, 3] ≤ 1 ∧
    ((startWatcher 5 (startWatcher 5 [5, 3]).2).2).count 5 = 1 :=
  ⟨by decide, start_stop_idempotent.2.1 5 [5, 3] (by decide)⟩

/-- Lookup distributes over append, preferring the left list. -/
theorem lookup_or_append {α β : Type} [BEq α] (a : α) (l₁ l₂ : List (α × β)) :
    List.lookup a (l₁ ++ l₂) = (List.lookup a l₁).or (List.lookup a l₂) := by
  induction l₁ with
  | nil => simp [List.lookup]
  | cons kv t ih =>
    obtain ⟨k, v⟩ := kv
    simp only [List.cons_append, List.lookup]
    cases hk : a == k with
    | true => simp
    | false => simp [ih]

/-- The Watchers-page loop keeps, for each id, whatever the accumulator
already holds, and otherwise the first matching event of the remainder. -/
theorem latestByWatcherAux_lookup (w : Nat) :
    ∀ (evs : List EventItem) (m : List (Nat × EventItem)),
      List.lookup w (latestByWatcherAux m evs)
        = (List.lookup w m).or (evs.find? (fun e => e.watcher_id == w)) := by
  intro evs
  induction evs with
  | nil =>
    intro m
    simp [latestByWatcherAux, List.find?]
  | cons e rest ih =>
    intro m
    rw [latestByWatcherAux, ih]
    by_cases hwk : e.watcher_id = w
    · subst hwk
      rw [List.find?_cons_of_pos _ (by simp)]
      by_cases hs : (List.lookup e.watcher_id m).isSome
      · rw [if_pos hs]
        obtain ⟨x, hx⟩ := Option.isSome_iff_exists.mp hs
        rw [hx]
        simp [Option.or]
      · rw [if_neg hs]
        have hnone : List.lookup e.watcher_id m = none := Option.not_isSome_iff_eq_none.mp hs
        rw [lookup_or_append, hnone]
        simp [List.lookup, Option.or]
    · have hb : (e.watcher_id == w) = false := beq_eq_false_iff_ne.mpr hwk
      have hb2 : (w == e.watcher_id) = false := beq_eq_false_iff_ne.mpr (Ne.symm hwk)
      rw [List.find?_cons_of_neg _ (by simp [hb])]
      by_cases hs : (List.lookup e.watcher_id m).isSome
      · rw [if_pos hs]
      · rw [if_neg hs]
        rw [lookup_or_append]
        have hsing : List.lookup w [(e.watcher_id, e)] = none := by
          simp [List.lookup, hb2]
        rw [hsing]
        cases List.lookup w m <;> simp [Option.or]

/-- In a list sorted by a descending key, the first entry satisfying the
watcher-id test has the maximal key among all entries satisfying it. -/
theorem find?_first_is_max (ts : EventItem → Int) (w : Nat) :
    ∀ (evs : List EventItem), evs.Pairwise (fun a b => ts b ≤ ts a) →
      ∀ e ∈ evs, e.watcher_id = w →
        ∃ l, evs.find? (fun x => x.watcher_id == w) = some l ∧
          l.watcher_id = w ∧ ts e ≤ ts l := by
  intro evs
  induction evs with
  | nil =>
    intro _ e he
    cases he
  | cons a rest ih =>
    intro hp e he hew
    rw [List.pairwise_cons] at hp
    obtain ⟨ha, hp'⟩ := hp
    by_cases hwk : a.watcher_id = w
    · refine ⟨a, ?_, hwk, ?_⟩
      · rw [List.find?_cons_of_pos _ (by simp [hwk])]
      · rcases List.mem_cons.mp he with rfl | hm
        · exact le_refl _
        · exact ha e hm
    · have hb : (a.watcher_id == w) = false := beq_eq_false_iff_ne.mpr hwk
      rcases List.mem_cons.mp he with rfl | hm
      · exact absurd hew hwk
      · obtain ⟨l, hl1, hl2, hl3⟩ := ih hp' e hm hew
        refine ⟨l, ?_, hl2, hl3⟩
        rw [List.find?_cons_of_neg _ (by simp [hb])]
        exact hl1

/-- C8: the Watchers-page map assigns to each watcher id the first event in
the list that carries it; under a newest-first ordering that first event
has the latest timestamp among the watcher's events; ids with no event are
absent from the map. -/
theorem latest_event_first_match :
    (∀ (events : List EventItem) (w : Nat),
        List.lookup w (latestByWatcher events)
          = events.find? (fun e => e.watcher_id == w)) ∧
    (∀ (events : List EventItem) (w : Nat) (ts : EventItem → Int),
        events.Pairwise (fun a b => ts b ≤ ts a) →
        ∀ e ∈ events, e.watcher_id = w →
          ∃ l, List.lookup w (latestByWatcher events) = some l ∧
            l.watcher_id = w ∧ ts e ≤ ts l) ∧
    (∀ (events : List EventItem) (w : Nat),
        (∀ e ∈ events, e.watcher_id ≠ w) →
        List.lookup w (latestByWatcher events) = none) := by
  have hmain : ∀ (events : List EventItem) (w : Nat),
      List.lookup w (latestByWatcher events)
        = events.find? (fun e => e.watcher_id == w) := by
    intro events w
    rw [latestByWatcher, latestByWatcherAux_lookup]
    simp [List.lookup, Option.or]
  refine ⟨hmain, ?_, ?_⟩
  · intro events w ts hp e he hew
    obtain ⟨l, hl1, hl2, hl3⟩ := find?_first_is_max ts w events hp e he hew
    exact ⟨l, by rw [hmain, hl1], hl2, hl3⟩
  · intro events w h
    rw [hmain]
    rw [List.find?_eq_none]
    intro e he
    simp [h e he]

/-- The two events of the C8 witness: id 2 is newer, both for watcher 7. -/
def newerEvent : EventItem :=
  { id := 2, watcher_id := 7, event_type := "modified", file_path := "/w/a.mp4",
    created_at := some "2024-01-02T00:00:00" }

/-- The older event of the C8 witness. -/
def olderEvent : EventItem :=
  { id := 1, watcher_id := 7, event_type := "created", file_path := "/w/a.mp4",
    created_at := some "2024-01-01T00:00:00" }

/-- C8 witness: on the newest-first list `[newerEvent, olderEvent]` the map
entry for watcher 7 is an event of watcher 7 whose key is at least the
older event's key. -/
theorem latest_event_first_match_witness :
    [newerEvent, olderEvent].Pairwise
      (fun a b => (fun x => (x.id : Int)) b ≤ (fun x => (x.id : Int)) a) ∧
    olderEvent ∈ [newerEvent, olderEvent] ∧
    olderEvent.watcher_id = 7 ∧
    (∃ l, List.lookup 7 (latestByWatcher [newerEvent, olderEvent]) = some l ∧
      l.watcher_id = 7 ∧ (olderEvent.id : Int) ≤ (l.id : Int)) :=
  ⟨by decide, by decide, by decide,
    latest_event_first_match.2.1 [newerEvent, olderEvent] 7 (fun x => (x.id : Int))
      (by decide) olderEvent (by decide) (by decide)⟩

/-- When a time filter is set, an event without a timestamp fails the
date clause. -/
theorem dateOk_of_no_timestamp (pd : String → Option Int) (f : EventFilters) (e : EventRow)
    (h1 : f.start ≠ "" ∨ f.endTime ≠ "") (h2 : e.created_at = none) :
    dateOk pd f e = false := by
  have ht : (f.start != "" || f.endTime != "") = true := by
    rcases h1 with h | h <;> simp [h]
  simp [dateOk, ht, h2]

/-- The Events-page predicate is the conjunction of its five clauses. -/
theorem eventPasses_eq_conj (pd : String → Option Int) (f : EventFilters) (e : EventRow) :
    eventPasses pd f e
      = (idOk f e && watcherOk f e && typeOk f e && pathOk f e && dateOk pd f e) := by
  rw [eventPasses, idOk, watcherOk, typeOk, pathOk]
  cases h1 : (jsTrim f.id != "" && !strContains (Nat.repr e.id) (jsTrim f.id)) <;>
    cases h2 : (jsTrim f.watcher != "" && !strContains (Nat.repr e.watcher_id) (jsTrim f.watcher)) <;>
      cases h3 : (jsTrim f.type != "" && jsToLower e.event_type != jsToLower (jsTrim f.type)) <;>
        cases h4 : (jsTrim f.path != ""
            && !strContains (jsToLower e.file_path) (jsToLower (jsTrim f.path))) <;>
          simp [h1, h2, h3, h4]

/-- C9: with a start or end time filter set, an event with no `created_at`
is excluded; an event whose parsed timestamp equals both boundaries passes
the date clause (the range is inclusive); and the filters combine
conjunctively. -/
theorem events_time_filter :
    (∀ (pd : String → Option Int) (f : EventFilters) (e : EventRow),
        (f.start ≠ "" ∨ f.endTime ≠ "") → e.created_at = none →
        eventPasses pd f e = false) ∧
    (∀ (pd : String → Option Int) (f : EventFilters) (e : EventRow) (ca : String) (t : Int),
        f.start ≠ "" → f.endTime ≠ "" → e.created_at = some ca → ca ≠ "" →
        pd ca = some t → pd f.start = some t → pd f.endTime = some t →
        dateOk pd f e = true) ∧
    (∀ (pd : String → Option Int) (f : EventFilters) (e : EventRow),
        eventPasses pd f e
          = (idOk f e && watcherOk f e && typeOk f e && pathOk f e && dateOk pd f e)) := by
  refine ⟨?_, ?_, eventPasses_eq_conj⟩
  · intro pd f e h1 h2
    rw [eventPasses_eq_conj, dateOk_of_no_timestamp pd f e h1 h2]
    simp
  · intro pd f e ca t h1 h2 h3 h4 h5 h6 h7
    have hs : (f.start != "") = true := by simp [h1]
    have he : (f.endTime != "") = true := by simp [h2]
    have hca : (ca == "") = false := by simp [h4]
    simp [dateOk, hs, he, h3, hca, h5, h6, h7]

/-- The date parser of the C9 witness. -/
def sampleParseDate : String → Option Int :=
  fun s => if s == "2024-06-01T10:00" then some 500 else none

/-- The filter state of the C9 witness: both bounds at the same instant. -/
def sampleFilters : EventFilters :=
  { id := "", watcher := "", type := "", path := "",
    start := "2024-06-01T10:00", endTime := "2024-06-01T10:00" }

/-- The event row of the C9 witness, timestamped exactly at the boundary. -/
def sampleRow : EventRow :=
  { id := 1, watcher_id := 2, event_type := "created", file_path := "/w/a.mp4",
    created_at := some "2024-06-01T10:00" }

/-- C9 witness: with both bounds set to the event's own timestamp, the date
clause accepts the event. -/
theorem events_time_filter_witness :
    sampleFilters.start ≠ "" ∧ sampleFilters.endTime ≠ "" ∧
    sampleRow.created_at = some "2024-06-01T10:00" ∧
    dateOk sampleParseDate sampleFilters sampleRow = true :=
  ⟨by decide, by decide, by decide,
    events_time_filter.2.1 sampleParseDate sampleFilters sampleRow "2024-06-01T10:00" 500
      (by decide) (by decide) (by decide) (by decide) (by decide) (by decide) (by decide)⟩

/-- C10: `formatMetadataValue` maps null and undefined to `N/A`; a number
strictly above 1,000,000 to millions with two decimals and `M`; a number
strictly above 1,000 and at most 1,000,000 to thousands with two decimals
and `K`; everything else to its plain string form — in particular 1000
renders as `1000` and 1000000 as `1000.00K`, not `1.00M`. -/
theorem formatMetadataValue_thresholds :
    formatMetadataValue .null = "N/A" ∧
    formatMetadataValue .undef = "N/A" ∧
    (∀ s, formatMetadataValue (.str s) = s) ∧
    (∀ v : JSNum, (1000000 : ℚ) < v.toRat →
        formatMetadataValue (.num v) = toFixed2 (v.divPow10 6) ++ "M") ∧
    (∀ v : JSNum, (1000 : ℚ) < v.toRat → v.toRat ≤ 1000000 →
        formatMetadataValue (.num v) = toFixed2 (v.divPow10 3) ++ "K") ∧
    (∀ v : JSNum, v.toRat ≤ 1000 → formatMetadataValue (.num v) = jsNumToString v) ∧
    formatMetadataValue (.num ⟨1000, 0⟩) = "1000" ∧
    formatMetadataValue (.num ⟨1000000, 0⟩) = "1000.00K" := by
  have hofInt : ∀ n : Int, (JSNum.ofInt n).toRat = (n : ℚ) := by
    intro n
    simp [JSNum.ofInt, JSNum.toRat]
  refine ⟨rfl, rfl, fun s => rfl, ?_, ?_, ?_, by decide, by decide⟩
  · intro v h
    have hb : JSNum.blt (JSNum.ofInt 1000000) v = true := by
      rw [JSNum.blt_eq_true_iff, hofInt]
      exact_mod_cast h
    simp [formatMetadataValue, hb]
  · intro v h1 h2
    have hb1 : JSNum.blt (JSNum.ofInt 1000000) v = false := by
      rw [Bool.eq_false_iff]
      intro hc
      have := (JSNum.blt_eq_true_iff _ _).mp hc
      rw [hofInt] at this
      have : (1000000 : ℚ) < v.toRat := by exact_mod_cast this
      linarith
    have hb2 : JSNum.blt (JSNum.ofInt 1000) v = true := by
      rw [JSNum.blt_eq_true_iff, hofInt]
      exact_mod_cast h1
    simp [formatMetadataValue, hb1, hb2]
  · intro v h
    have hb1 : JSNum.blt (JSNum.ofInt 1000000) v = false := by
      rw [Bool.eq_false_iff]
      intro hc
      have := (JSNum.blt_eq_true_iff _ _).mp hc
      rw [hofInt] at this
      have : (1000000 : ℚ) < v.toRat := by exact_mod_cast this
      linarith
    have hb2 : JSNum.blt (JSNum.ofInt 1000) v = false := by
      rw [Bool.eq_false_iff]
      intro hc
      have := (JSNum.blt_eq_true_iff _ _).mp hc
      rw [hofInt] at this
      have : (1000 : ℚ) < v.toRat := by exact_mod_cast this
      linarith
    simp [formatMetadataValue, hb1, hb2]

/-- C10 witness: 2,500,000 scales to `2.50M` and 45,000 to `45.00K`. -/
theorem formatMetadataValue_thresholds_witness :
    (1000000 : ℚ) < JSNum.toRat ⟨2500000, 0⟩ ∧
    formatMetadataValue (.num ⟨2500000, 0⟩) = toFixed2 (JSNum.divPow10 ⟨2500000, 0⟩ 6) ++ "M" ∧
    (1000 : ℚ) < JSNum.toRat ⟨45000, 0⟩ ∧ JSNum.toRat ⟨45000, 0⟩ ≤ 1000000 ∧
    formatMetadataValue (.num ⟨45000, 0⟩) = toFixed2 (JSNum.divPow10 ⟨45000, 0⟩ 3) ++ "K" :=
  ⟨by norm_num [JSNum.toRat],
    formatMetadataValue_thresholds.2.2.2.1 ⟨2500000, 0⟩ (by norm_num [JSNum.toRat]),
    by norm_num [JSNum.toRat], by norm_num [JSNum.toRat],
    formatMetadataValue_thresholds.2.2.2.2.1 ⟨45000, 0⟩ (by norm_num [JSNum.toRat])
      (by norm_num [JSNum.toRat])⟩
